import Mathlib

/-!
Shallow embedding of the per-guild music playback controller implemented in
`src/cogs/music_power.py` (the `MusicPower` cog).  The embedding covers the
`Track` and `GuildState` data model, the queue/now-playing selection core of
`MusicPower.play_next`, the error-retry path of `play_next` together with the
session's asyncio lock (modelled as an explicit boolean in a fuelled
evaluator), the control-file watcher cycle of `_control_queue_watcher`, the
idle reaper `_idle_disconnect`, the snapshot-store writer `_update_state`,
the queue-editing commands `remove` / `move`, the watcher's `volume` action,
and the post-search body of the `play` command.  Machine floats of the
source (volume, timestamps) are modelled as rationals; file contents are
modelled as byte lists.
-/

/-- `Track` dataclass of `music_power.py` (lines 62-80): one resolved
playable item. -/
structure Track where
  title : String
  webpage_url : String
  stream_url : String
  duration : Int
  requested_by : Nat
  source : String := "yt"
  thumb : Option String := none
  uploader : Option String := none
  deriving DecidableEq

/-- `LoopMode` of `music_power.py` (lines 83-86): OFF = 0, ONE = 1, ALL = 2. -/
inductive LoopMode where
  | OFF
  | ONE
  | ALL
  deriving DecidableEq

/-- `GuildState` dataclass (lines 89-109).  The `asyncio.Lock` field is not
part of this value; it is modelled explicitly where it matters (see
`playNext`).  `volume` and `idle_since` are `float` in the source and
rationals here. -/
structure GuildState where
  queue : List Track
  loop : LoopMode := .OFF
  volume : Rat := 1
  filter_id : Option String := none
  last_text_channel_id : Option Nat := none
  idle_since : Rat := 0
  now : Option Track := none
  autoplay : Bool := false
  radio_query : Option String := none
  deriving DecidableEq

/-- `GuildState.clear` (lines 103-109): empties the queue and resets loop,
filter, now, autoplay and radio seed; it touches no other field. -/
def GuildState.clear (st : GuildState) : GuildState :=
  { st with
    queue := []
    loop := .OFF
    filter_id := none
    now := none
    autoplay := false
    radio_query := none }

/-- Queue/now-playing selection core of `MusicPower.play_next`
(lines 527-540), the code executed under `st.lock` before a source is
built.  Returns the updated state together with the track chosen to play
(`none` when the queue was empty and the session went idle).  `tm` is the
value of `time.time()` at the call. -/
def playNextSelect (st : GuildState) (startedBySkip : Bool) (tm : Rat) :
    GuildState × Option Track :=
  if st.now.isSome ∧ st.loop = LoopMode.ONE ∧ startedBySkip = false then
    (st, st.now)
  else
    match st.queue with
    | [] => ({ st with now := none, idle_since := tm }, none)
    | track :: rest =>
      let q2 :=
        match st.now with
        | some prev =>
          if st.loop = LoopMode.ALL ∧ startedBySkip = false then rest ++ [prev]
          else rest
        | none => rest
      ({ st with queue := q2, now := some track }, some track)

/-- One natural (non-forced) advance, as fired by the completion callback
`_after_finished` → `play_next(inter)` with `started_by_skip=False`. -/
def natAdvance (st : GuildState) : GuildState :=
  (playNextSelect st false 0).1

/-- A JSON scalar as stored in the snapshot documents. -/
inductive JVal where
  | str (s : String)
  | int (n : Int)
  | bool (b : Bool)
  | null
  deriving DecidableEq

/-- A snapshot document: a JSON object modelled as an association list of
string keys (a Python dict; keys are unique in any dict the code builds). -/
def Doc := List (String × JVal)

instance : DecidableEq Doc := by
  unfold Doc
  infer_instance

/-- Key lookup in a snapshot document (Python `d.get(k)`). -/
def docGet (d : Doc) (k : String) : Option JVal :=
  match d with
  | [] => none
  | (k2, v) :: rest => if k2 = k then some v else docGet rest k

/-- The whole snapshot store: the JSON object held in `STATE_FILE`, keyed
by guild id (a Python dict keyed by `str(guild_id)`; we key by the id). -/
def Store := List (Nat × Doc)

instance : DecidableEq Store := by
  unfold Store
  infer_instance

/-- Store lookup (Python `state.get(str(gid))`). -/
def storeGet (s : Store) (gid : Nat) : Option Doc :=
  match s with
  | [] => none
  | (k, v) :: rest => if k = gid then some v else storeGet rest gid

/-- Python dict assignment `state[str(gid)] = d`: replace the binding if
present, else append it. -/
def storeSet (s : Store) (gid : Nat) (d : Doc) : Store :=
  match s with
  | [] => [(gid, d)]
  | (k, v) :: rest => if k = gid then (gid, d) :: rest else (k, v) :: storeSet rest gid d

/-- Python `state.pop(str(gid), None)`: drop the binding if present. -/
def storePop (s : Store) (gid : Nat) : Store :=
  match s with
  | [] => []
  | (k, v) :: rest => if k = gid then rest else (k, v) :: storePop rest gid

/-- `_update_state(guild_id, payload)` (lines 187-197) acting on the loaded
store: `payload = none` pops the guild's entry, otherwise the entry is
assigned the payload. -/
def updateState (state : Store) (guild_id : Nat) (payload : Option Doc) : Store :=
  match payload with
  | none => storePop state guild_id
  | some d => storeSet state guild_id d

/-- The keys of a store are distinct (true of every Python dict). -/
def storeKeysNodup (s : Store) : Prop :=
  (List.map Prod.fst s).Nodup

instance (s : Store) : Decidable (storeKeysNodup s) := by
  unfold storeKeysNodup
  infer_instance

/-- One reaper observation of one session: the per-guild body of
`MusicPower._idle_disconnect` (lines 1148-1166).  `hasVC` is whether the
guild has a voice client, `isPlaying` the backend's is-playing signal, and
`tm` the value of `time.time()` during the cycle.  Returns the updated
session, the updated snapshot store, and whether the voice connection was
disconnected. -/
def idleDisconnectStep (hasVC isPlaying : Bool) (tm : Rat) (gid : Nat)
    (st : GuildState) (store : Store) : GuildState × Store × Bool :=
  if hasVC = true ∧ isPlaying = false then
    let st1 := if st.idle_since = 0 then { st with idle_since := tm } else st
    if 120 < tm - st1.idle_since ∧ st1.queue = [] then
      ({ st1.clear with idle_since := 0 }, updateState store gid none, true)
    else (st1, store, false)
  else ({ st with idle_since := 0 }, store, false)

/-- The watcher's `volume` control action (lines 1061-1067):
`st.volume = max(0, min(200, pct)) / 100.0`. -/
def volumeAction (st : GuildState) (pct : Int) : GuildState :=
  { st with volume := ((max 0 (min 200 pct) : Int) : Rat) / 100 }

/-- The stored snapshot document of a guild that is playing (as
`_snapshot_state` would produce, restricted to two keys). -/
def docPlaying : Doc :=
  [("status", JVal.str "playing"), ("volume", JVal.int 100)]

/-- The payload the `pause` command sinks:
`_update_state(guild_id, {"status": "paused"})` (line 681). -/
def docPausedPartial : Doc := [("status", JVal.str "paused")]

/-- `MusicPower.remove` (lines 769-779): a 1-based index; an index outside
[1, len(queue)] leaves the queue untouched, otherwise `q.pop(index-1)`.
The index is an `Int` because the watcher path feeds
`int(payload.get("index", 0))`. -/
def removeCmd (st : GuildState) (index : Int) : GuildState :=
  if index < 1 ∨ index > (st.queue.length : Int) then st
  else { st with queue := st.queue.eraseIdx (index - 1).toNat }

/-- `MusicPower.move` (lines 781-793): 1-based indices; if either index is
outside [1, len(queue)] the queue is untouched, otherwise
`t = q.pop(src-1); q.insert(dst-1, t)`. -/
def moveCmd (st : GuildState) (src dst : Int) : GuildState :=
  if src < 1 ∨ dst < 1 ∨ src > (st.queue.length : Int) ∨
      dst > (st.queue.length : Int) then st
  else
    match (st.queue)[(src - 1).toNat]? with
    | none => st
    | some t =>
      { st with
        queue := (st.queue.eraseIdx (src - 1).toNat).insertIdx (dst - 1).toNat t }

/-- Split a byte sequence into the stripped lines that `readlines`
followed by the per-line `strip()` of the watcher produce. -/
def splitLinesAux : List Char → List Char → List (List Char)
  | [], acc => if acc.isEmpty then [] else [acc.reverse]
  | c :: rest, acc =>
    if c = '\n' then acc.reverse :: splitLinesAux rest []
    else splitLinesAux rest (c :: acc)

def splitLines (s : List Char) : List (List Char) := splitLinesAux s []

/-- One read-and-truncate cycle of `MusicPower._control_queue_watcher`
over the control file (lines 984-989): `f.seek(pos); lines =
f.readlines(); pos = f.tell(); f.truncate(0)`.  The file is a byte list;
the result is the lines read, the new cursor value and the new file
contents.  Seeking past the end of the file reads nothing and leaves the
position where it was, so the new cursor is `max pos file.length`; the
truncate empties the file, and the code never sets `pos` back to 0. -/
def watcherCycle (pos : Nat) (file : List Char) :
    List (List Char) × Nat × List Char :=
  (splitLines (file.drop pos), max pos file.length, [])

/-- Outcome of a `play_next` invocation in the lock model: the call
finished (with the final session state and whether the session lock is
still held), or the task is blocked forever awaiting the session lock, or
the fuel ran out. -/
inductive PlayOutcome where
  | finished (st : GuildState) (lockHeld : Bool)
  | blockedOnLock (st : GuildState) (lockHeld : Bool)
  | outOfFuel
  deriving DecidableEq

/-- Fuelled model of `MusicPower.play_next` (lines 517-567) including the
session lock.  `lockHeld` says whether the non-reentrant `st.lock` is
already held by the current task's call chain; `startFails tr` says
whether building or starting the source for `tr` raises (the `except` at
line 562).  On such an error the code reports it and re-invokes
`play_next` while still inside `async with st.lock`, which the model
renders as a recursive call with `lockHeld = true`; a task that awaits an
asyncio lock it already holds waits forever, rendered as
`blockedOnLock`. -/
def playNext (fuel : Nat) (lockHeld : Bool) (st : GuildState)
    (startedBySkip : Bool) (startFails : Track → Bool) (tm : Rat) :
    PlayOutcome :=
  match fuel with
  | 0 => .outOfFuel
  | fuel + 1 =>
    if lockHeld then .blockedOnLock st true
    else
      let sel := playNextSelect st startedBySkip tm
      match sel.2 with
      | none => .finished sel.1 false
      | some tr =>
        if startFails tr then playNext fuel true sel.1 false startFails tm
        else .finished sel.1 false

/-- A Python runtime error surfaced by the `play` body. -/
inductive PyError where
  | attributeErrorNoneTitle
  deriving DecidableEq

/-- Body of `MusicPower.play` after a successful backend search
(lines 650-664): append the results to the queue with the requester set,
let `first = tracks[0] if tracks else None`, and when nothing is playing
or paused run `play_next` and build the reply from `first.title`; the
busy branch builds its reply from `first.title` as well.  The attribute
access on `first` raises AttributeError when the search returned no
tracks. -/
def playAfterSearch (st : GuildState) (tracks : List Track) (uid : Nat)
    (isPlaying isPaused : Bool) (tm : Rat) :
    Except PyError (GuildState × String) :=
  let st1 := { st with
    queue := st.queue ++ tracks.map (fun t => { t with requested_by := uid }) }
  let first : Option Track := tracks.head?
  if isPlaying = false ∧ isPaused = false then
    let st2 := (playNextSelect st1 false tm).1
    match first with
    | none => .error .attributeErrorNoneTitle
    | some f => .ok (st2, "Запускаю: " ++ f.title)
  else
    match first with
    | none => .error .attributeErrorNoneTitle
    | some f => .ok (st1, "В очередь: " ++ f.title)

/-- C1: with LoopMode = ALL, a non-empty queue and a track playing, a
natural advance pops the queue front as the next track and appends the
just-finished track to the tail after popping, so the queue never becomes
empty; consequently from queue [A,B,C] successive natural completions play
A, B, C, A, B, C. -/
theorem loopAll_natural_pops_then_requeues
    (st : GuildState) (prev t : Track) (rest : List Track) (tm : Rat)
    (hLoop : st.loop = LoopMode.ALL) (hNow : st.now = some prev)
    (hQ : st.queue = t :: rest) :
    ((playNextSelect st false tm).1.now = some t ∧
      (playNextSelect st false tm).1.queue = rest ++ [prev] ∧
      (playNextSelect st false tm).1.queue ≠ []) ∧
    (∀ A B C : Track,
      ((natAdvance^[1] { queue := [A, B, C], loop := .ALL }).now = some A ∧
       (natAdvance^[2] { queue := [A, B, C], loop := .ALL }).now = some B ∧
       (natAdvance^[3] { queue := [A, B, C], loop := .ALL }).now = some C ∧
       (natAdvance^[4] { queue := [A, B, C], loop := .ALL }).now = some A ∧
       (natAdvance^[5] { queue := [A, B, C], loop := .ALL }).now = some B ∧
       (natAdvance^[6] { queue := [A, B, C], loop := .ALL }).now = some C)) := by
  constructor
  · simp [playNextSelect, hLoop, hNow, hQ]
  · intro A B C
    refine ⟨rfl, rfl, rfl, rfl, rfl, rfl⟩

/-- Witness for `loopAll_natural_pops_then_requeues` at a concrete state. -/
theorem loopAll_natural_pops_then_requeues_witness :
    (playNextSelect
        { queue := [⟨"b", "", "", 0, 0, "yt", none, none⟩],
          loop := .ALL,
          now := some ⟨"a", "", "", 0, 0, "yt", none, none⟩ } false 7).1.queue =
      [⟨"a", "", "", 0, 0, "yt", none, none⟩] := by
  have h := loopAll_natural_pops_then_requeues
    { queue := [⟨"b", "", "", 0, 0, "yt", none, none⟩],
      loop := .ALL,
      now := some ⟨"a", "", "", 0, 0, "yt", none, none⟩ }
    ⟨"a", "", "", 0, 0, "yt", none, none⟩
    ⟨"b", "", "", 0, 0, "yt", none, none⟩ [] 7 rfl rfl rfl
  exact h.1.2.1

/-- C4: with LoopMode = ONE and a track playing, a natural advance replays
that track and leaves the whole state (in particular the queue) unchanged,
while a forced advance (skip) discards it and pops the queue front. -/
theorem loopOne_natural_replays_forced_pops
    (st : GuildState) (a b : Track) (rest : List Track) (tm : Rat)
    (hLoop : st.loop = LoopMode.ONE) (hNow : st.now = some a)
    (hQ : st.queue = b :: rest) :
    (playNextSelect st false tm).1 = st ∧
    (playNextSelect st false tm).2 = some a ∧
    (playNextSelect st true tm).1.now = some b ∧
    (playNextSelect st true tm).1.queue = rest := by
  refine ⟨?_, ?_, ?_, ?_⟩ <;>
    simp [playNextSelect, hLoop, hNow, hQ]

/-- Witness for `loopOne_natural_replays_forced_pops` at a concrete state. -/
theorem loopOne_natural_replays_forced_pops_witness :
    (playNextSelect
        { queue := [⟨"b", "", "", 0, 0, "yt", none, none⟩],
          loop := .ONE,
          now := some ⟨"a", "", "", 0, 0, "yt", none, none⟩ } true 3).1.queue = [] := by
  have h := loopOne_natural_replays_forced_pops
    { queue := [⟨"b", "", "", 0, 0, "yt", none, none⟩],
      loop := .ONE,
      now := some ⟨"a", "", "", 0, 0, "yt", none, none⟩ }
    ⟨"a", "", "", 0, 0, "yt", none, none⟩
    ⟨"b", "", "", 0, 0, "yt", none, none⟩ [] 3 rfl rfl rfl
  exact h.2.2.2

theorem storeGet_eq_none_of_not_mem (s : Store) (gid : Nat)
    (h : gid ∉ List.map Prod.fst s) : storeGet s gid = none := by
  induction s with
  | nil => rfl
  | cons hd rest ih =>
    obtain ⟨k, v⟩ := hd
    simp only [List.map_cons, List.mem_cons, not_or] at h
    have hk : k ≠ gid := fun he => h.1 he.symm
    simp only [storeGet, if_neg hk]
    exact ih h.2

theorem storeGet_storeSet_self (s : Store) (gid : Nat) (d : Doc) :
    storeGet (storeSet s gid d) gid = some d := by
  induction s with
  | nil => simp [storeSet, storeGet]
  | cons hd rest ih =>
    obtain ⟨k, v⟩ := hd
    by_cases hk : k = gid
    · simp [storeSet, storeGet, hk]
    · simp [storeSet, storeGet, hk, ih]

theorem storeGet_storeSet_other (s : Store) (gid g : Nat) (d : Doc)
    (hne : g ≠ gid) : storeGet (storeSet s gid d) g = storeGet s g := by
  have hgid : gid ≠ g := fun he => hne he.symm
  induction s with
  | nil => simp [storeSet, storeGet, hgid]
  | cons hd rest ih =>
    obtain ⟨k, v⟩ := hd
    by_cases hk : k = gid
    · subst hk
      simp [storeSet, storeGet, hgid]
    · by_cases hg : k = g
      · subst hg
        simp [storeSet, storeGet, hk]
      · simp [storeSet, storeGet, hk, hg, ih]

theorem storeGet_storePop_self (s : Store) (gid : Nat)
    (hnd : storeKeysNodup s) : storeGet (storePop s gid) gid = none := by
  induction s with
  | nil => rfl
  | cons hd rest ih =>
    obtain ⟨k, v⟩ := hd
    unfold storeKeysNodup at hnd
    simp only [List.map_cons, List.nodup_cons] at hnd
    by_cases hk : k = gid
    · subst hk
      simp only [storePop, if_pos rfl]
      exact storeGet_eq_none_of_not_mem rest k hnd.1
    · simp only [storePop, if_neg hk, storeGet, if_neg hk]
      exact ih hnd.2

theorem storeGet_storePop_other (s : Store) (gid g : Nat) (hne : g ≠ gid) :
    storeGet (storePop s gid) g = storeGet s g := by
  induction s with
  | nil => rfl
  | cons hd rest ih =>
    obtain ⟨k, v⟩ := hd
    by_cases hk : k = gid
    · subst hk
      have hg : k ≠ g := fun he => hne he.symm
      simp [storePop, storeGet, hg]
    · by_cases hg : k = g
      · subst hg
        simp [storePop, storeGet, hk]
      · simp [storePop, storeGet, hk, hg, ih]

/-- C6 counterexample: `_update_state` does not merge.  Sinking the partial
pause payload into a store whose entry for guild 1 also holds a "volume"
key drops that key: after the sink, looking up "volume" in guild 1's
document yields nothing, though the old document had it and the payload
did not mention it. -/
theorem update_state_drops_absent_keys :
    docGet docPlaying "volume" = some (JVal.int 100) ∧
    docGet docPausedPartial "volume" = none ∧
    (storeGet (updateState [(1, docPlaying)] 1 (some docPausedPartial)) 1).bind
        (fun d => docGet d "volume") ≠ some (JVal.int 100) := by
  refine ⟨rfl, rfl, by decide⟩

/-- C6 amended: `_update_state` replaces the tenant's entry wholesale with
the payload (keys absent from a partial payload are dropped), leaves every
other tenant's entry unchanged, and with `payload = None` deletes exactly
the target tenant's entry. -/
theorem update_state_replaces_entry (state : Store) (gid g : Nat) (d : Doc)
    (hnd : storeKeysNodup state) (hne : g ≠ gid) :
    storeGet (updateState state gid (some d)) gid = some d ∧
    storeGet (updateState state gid (some d)) g = storeGet state g ∧
    storeGet (updateState state gid none) gid = none ∧
    storeGet (updateState state gid none) g = storeGet state g := by
  exact ⟨storeGet_storeSet_self state gid d,
         storeGet_storeSet_other state gid g d hne,
         storeGet_storePop_self state gid hnd,
         storeGet_storePop_other state gid g hne⟩

/-- Witness for `update_state_replaces_entry` on a concrete store. -/
theorem update_state_replaces_entry_witness :
    storeKeysNodup [(1, docPlaying), (2, docPausedPartial)] ∧ (2 : Nat) ≠ 1 ∧
    storeGet
        (updateState [(1, docPlaying), (2, docPausedPartial)] 1
          (some docPausedPartial)) 1 = some docPausedPartial := by
  refine ⟨by decide, by decide, ?_⟩
  exact (update_state_replaces_entry [(1, docPlaying), (2, docPausedPartial)]
    1 2 docPausedPartial (by decide) (by decide)).1

/-- C5: the idle reaper disconnects a session only when nothing is
streaming, the session has been idle for more than 120 seconds, and the
queue is empty; when it disconnects it clears the session and removes the
guild's snapshot; and whenever audio is streaming it resets idle-since to
zero. -/
theorem idle_reaper_conditions (hasVC isPlaying : Bool) (tm : Rat)
    (gid : Nat) (st : GuildState) (store : Store)
    (hnd : storeKeysNodup store) :
    ((idleDisconnectStep hasVC isPlaying tm gid st store).2.2 = true →
      isPlaying = false ∧ st.queue = [] ∧ st.idle_since ≠ 0 ∧
        120 < tm - st.idle_since) ∧
    ((idleDisconnectStep hasVC isPlaying tm gid st store).2.2 = true →
      (idleDisconnectStep hasVC isPlaying tm gid st store).1 =
          { st.clear with idle_since := 0 } ∧
        storeGet (idleDisconnectStep hasVC isPlaying tm gid st store).2.1 gid =
          none) ∧
    (hasVC = true → isPlaying = false → st.idle_since ≠ 0 →
      120 < tm - st.idle_since → st.queue = [] →
      (idleDisconnectStep hasVC isPlaying tm gid st store).2.2 = true) ∧
    (isPlaying = true →
      (idleDisconnectStep hasVC isPlaying tm gid st store).1.idle_since = 0 ∧
      (idleDisconnectStep hasVC isPlaying tm gid st store).2.2 = false) := by
  by_cases hv : hasVC = true ∧ isPlaying = false
  · by_cases hz : st.idle_since = 0
    · simp only [idleDisconnectStep, if_pos hv, if_pos hz]
      split_ifs with hc
      · exfalso
        have h1 : (120 : Rat) < tm - tm := hc.1
        have h2 : tm - tm = 0 := sub_self tm
        rw [h2] at h1
        norm_num at h1
      · refine ⟨?_, ?_, ?_, ?_⟩
        · intro h
          simp at h
        · intro h
          simp at h
        · intro _ _ hnz _ _
          exact absurd hz hnz
        · intro hp
          rw [hv.2] at hp
          simp at hp
    · simp only [idleDisconnectStep, if_pos hv, if_neg hz]
      split_ifs with hc
      · have hc1 : (120 : Rat) < tm - st.idle_since := hc.1
        have hc2 : st.queue = [] := hc.2
        refine ⟨?_, ?_, ?_, ?_⟩
        · intro _
          exact ⟨hv.2, hc2, hz, hc1⟩
        · intro _
          refine ⟨rfl, ?_⟩
          show storeGet (storePop store gid) gid = none
          exact storeGet_storePop_self store gid hnd
        · intro _ _ _ _ _
          rfl
        · intro hp
          rw [hv.2] at hp
          simp at hp
      · refine ⟨?_, ?_, ?_, ?_⟩
        · intro h
          simp at h
        · intro h
          simp at h
        · intro _ _ _ h1 h2
          exact absurd ⟨h1, h2⟩ hc
        · intro hp
          rw [hv.2] at hp
          simp at hp
  · simp only [idleDisconnectStep, if_neg hv]
    refine ⟨?_, ?_, ?_, ?_⟩
    · intro h
      simp at h
    · intro h
      simp at h
    · intro h1 h2 _ _ _
      exact absurd ⟨h1, h2⟩ hv
    · intro _
      simp

/-- Witness for `idle_reaper_conditions`: an idle, silent, empty-queue
session past the threshold is disconnected. -/
theorem idle_reaper_conditions_witness :
    storeKeysNodup [(7, docPlaying)] ∧
    (idleDisconnectStep true false 200 7
        { queue := [], idle_since := 1 } [(7, docPlaying)]).2.2 = true := by
  refine ⟨by decide, ?_⟩
  exact (idle_reaper_conditions true false 200 7
      { queue := [], idle_since := 1 } [(7, docPlaying)] (by decide)).2.2.1
    rfl rfl (by norm_num) (by norm_num) rfl

/-- C7: the watcher's volume action clamps the requested percentage to
[0, 200] before storing it as a fraction: the stored volume always lies in
[0, 2], an in-range request stores exactly pct/100, a request of 250%
stores 2.0, and nothing else in the session changes. -/
theorem volume_action_clamps (st : GuildState) (pct : Int) :
    0 ≤ (volumeAction st pct).volume ∧ (volumeAction st pct).volume ≤ 2 ∧
    (0 ≤ pct → pct ≤ 200 →
      (volumeAction st pct).volume = (pct : Rat) / 100) ∧
    (volumeAction st 250).volume = 2 ∧
    (volumeAction st pct).queue = st.queue := by
  have h1 : (0 : Int) ≤ max 0 (min 200 pct) := le_max_left _ _
  have h2 : max 0 (min 200 pct) ≤ 200 := max_le (by norm_num) (min_le_left _ _)
  have h1q : (0 : Rat) ≤ ((max 0 (min 200 pct) : Int) : Rat) := by
    exact_mod_cast h1
  have h2q : ((max 0 (min 200 pct) : Int) : Rat) ≤ 200 := by
    exact_mod_cast h2
  refine ⟨?_, ?_, ?_, ?_, rfl⟩
  · exact div_nonneg h1q (by norm_num)
  · rw [volumeAction]
    simp only
    rw [div_le_iff₀ (by norm_num : (0 : Rat) < 100)]
    linarith
  · intro hlo hhi
    have hmin : min 200 pct = pct := min_eq_right hhi
    have hmax : max 0 (min 200 pct) = pct := by
      rw [hmin]
      exact max_eq_right hlo
    simp [volumeAction, hmax]
  · norm_num [volumeAction]

/-- Witness for `volume_action_clamps`: requesting 250% stores 2.0 and an
in-range 150% stores 1.5. -/
theorem volume_action_clamps_witness :
    (volumeAction { queue := [] } 250).volume = 2 ∧
    (volumeAction { queue := [] } 150).volume = (150 : Rat) / 100 := by
  refine ⟨(volume_action_clamps { queue := [] } 250).2.2.2.1, ?_⟩
  exact (volume_action_clamps { queue := [] } 150).2.2.1 (by norm_num)
    (by norm_num)

/-- C8: `remove` and `move` perform no mutation for any index outside
[1, queue length]; a valid `remove` deletes exactly the track at the given
1-based position, and a valid `move` keeps the length, puts exactly the
source track at the destination position, and keeps every other track in
its original relative order (erasing the destination slot of the result
recovers the source queue with the moved track deleted). -/
theorem remove_move_bounds_and_exactness (st : GuildState) (i s d : Int) :
    ((i < 1 ∨ i > (st.queue.length : Int)) → removeCmd st i = st) ∧
    ((s < 1 ∨ d < 1 ∨ s > (st.queue.length : Int) ∨
        d > (st.queue.length : Int)) → moveCmd st s d = st) ∧
    (∀ j : Nat, j < st.queue.length →
      (removeCmd st ((j : Int) + 1)).queue =
        st.queue.take j ++ st.queue.drop (j + 1)) ∧
    (∀ js jd : Nat, ∀ t : Track, js < st.queue.length → jd < st.queue.length →
      (st.queue)[js]? = some t →
      ((moveCmd st ((js : Int) + 1) ((jd : Int) + 1)).queue.length =
          st.queue.length ∧
        (moveCmd st ((js : Int) + 1) ((jd : Int) + 1)).queue.eraseIdx jd =
          st.queue.eraseIdx js ∧
        ((moveCmd st ((js : Int) + 1) ((jd : Int) + 1)).queue)[jd]? = some t)) := by
  refine ⟨?_, ?_, ?_, ?_⟩
  · intro h
    rw [removeCmd, if_pos h]
  · intro h
    rw [moveCmd, if_pos h]
  · intro j hj
    have hcond : ¬((j : Int) + 1 < 1 ∨ (j : Int) + 1 > (st.queue.length : Int)) := by
      push_neg
      constructor
      · omega
      · exact_mod_cast Nat.succ_le_of_lt hj
    rw [removeCmd, if_neg hcond]
    have htn : ((j : Int) + 1 - 1).toNat = j := by omega
    simp only [htn]
    exact List.eraseIdx_eq_take_drop_succ st.queue j
  · intro js jd t hjs hjd hget
    have hcond : ¬((js : Int) + 1 < 1 ∨ (jd : Int) + 1 < 1 ∨
        (js : Int) + 1 > (st.queue.length : Int) ∨
        (jd : Int) + 1 > (st.queue.length : Int)) := by
      push_neg
      refine ⟨by omega, by omega, ?_, ?_⟩
      · exact_mod_cast Nat.succ_le_of_lt hjs
      · exact_mod_cast Nat.succ_le_of_lt hjd
    have hsn : ((js : Int) + 1 - 1).toNat = js := by omega
    have hdn : ((jd : Int) + 1 - 1).toNat = jd := by omega
    have hq : (moveCmd st ((js : Int) + 1) ((jd : Int) + 1)).queue =
        (st.queue.eraseIdx js).insertIdx jd t := by
      rw [moveCmd, if_neg hcond]
      simp only [hsn, hdn, hget]
    have hlen1 : (st.queue.eraseIdx js).length = st.queue.length - 1 := by
      simp [List.length_eraseIdx, hjs]
    have hjd1 : jd ≤ (st.queue.eraseIdx js).length := by omega
    refine ⟨?_, ?_, ?_⟩
    · rw [hq, List.length_insertIdx jd _ hjd1, hlen1]
      omega
    · rw [hq]
      exact List.eraseIdx_insertIdx jd (st.queue.eraseIdx js)
    · rw [hq]
      rw [List.getElem?_eq_getElem
        (by rw [List.length_insertIdx jd _ hjd1]; omega)]
      rw [List.getElem_insertIdx_self _ t jd hjd1]

/-- Witness for `remove_move_bounds_and_exactness` on a concrete queue. -/
theorem remove_move_bounds_and_exactness_witness :
    (removeCmd
        { queue := [⟨"a", "", "", 0, 0, "yt", none, none⟩,
                    ⟨"b", "", "", 0, 0, "yt", none, none⟩] } 5) =
      { queue := [⟨"a", "", "", 0, 0, "yt", none, none⟩,
                  ⟨"b", "", "", 0, 0, "yt", none, none⟩] } ∧
    (removeCmd
        { queue := [⟨"a", "", "", 0, 0, "yt", none, none⟩,
                    ⟨"b", "", "", 0, 0, "yt", none, none⟩] } 1).queue =
      [⟨"b", "", "", 0, 0, "yt", none, none⟩] ∧
    ((moveCmd
        { queue := [⟨"a", "", "", 0, 0, "yt", none, none⟩,
                    ⟨"b", "", "", 0, 0, "yt", none, none⟩] } 1 2).queue)[1]? =
      some ⟨"a", "", "", 0, 0, "yt", none, none⟩ := by
  refine ⟨?_, ?_, ?_⟩
  · exact (remove_move_bounds_and_exactness
      { queue := [⟨"a", "", "", 0, 0, "yt", none, none⟩,
                  ⟨"b", "", "", 0, 0, "yt", none, none⟩] } 5 0 0).1
      (Or.inr (by norm_num))
  · exact (remove_move_bounds_and_exactness
      { queue := [⟨"a", "", "", 0, 0, "yt", none, none⟩,
                  ⟨"b", "", "", 0, 0, "yt", none, none⟩] } 5 0 0).2.2.1
      0 (by norm_num)
  · exact ((remove_move_bounds_and_exactness
      { queue := [⟨"a", "", "", 0, 0, "yt", none, none⟩,
                  ⟨"b", "", "", 0, 0, "yt", none, none⟩] } 5 0 0).2.2.2
      0 1 ⟨"a", "", "", 0, 0, "yt", none, none⟩ (by norm_num) (by norm_num)
      rfl).2.2

/-- C2 is violated by the code: after one cycle consumes the two-byte log
containing the line "x", the log is empty but the cursor is 2, not 0; a
line "y" appended at offset zero after the truncation is then not read by
the next cycle — that cycle reads nothing and truncates the new line away
unprocessed. -/
theorem watcher_cursor_never_reset :
    (watcherCycle 0 ['x', '\n']).1 = [['x']] ∧
    (watcherCycle 0 ['x', '\n']).2.1 = 2 ∧
    (watcherCycle 0 ['x', '\n']).2.2 = [] ∧
    (watcherCycle 2 ['y', '\n']).1 = [] ∧
    (watcherCycle 2 ['y', '\n']).2.2 = [] := by
  refine ⟨rfl, rfl, rfl, rfl, rfl⟩

/-- C3 is violated by the code: when starting the source raises, the
retry `await self.play_next(inter)` at line 567 runs inside
`async with st.lock`, and asyncio locks are not reentrant — so with a
queue holding one unresolvable track, `play_next` ends blocked on its own
session lock with the lock still held; the queue is not drained and no
further advance can ever run for this session. -/
theorem play_next_error_retry_blocks_on_own_lock :
    playNext 5 false { queue := [⟨"bad", "w", "s", 0, 0, "yt", none, none⟩] }
        false (fun _ => true) 0 =
      PlayOutcome.blockedOnLock
        { queue := [], now := some ⟨"bad", "w", "s", 0, 0, "yt", none, none⟩ }
        true := by
  rfl

/-- C9 is violated by the code: with an empty search result nothing is
enqueued, but both branches of `play` evaluate `first.title` with
`first = None`, raising AttributeError — whether or not something is
currently playing — instead of completing without raising. -/
theorem play_empty_search_raises :
    playAfterSearch { queue := [] } [] 42 false false 100 =
      Except.error PyError.attributeErrorNoneTitle ∧
    playAfterSearch { queue := [] } [] 42 true false 100 =
      Except.error PyError.attributeErrorNoneTitle := by
  refine ⟨rfl, rfl⟩

/-- C10: `GuildState.clear` empties the queue and resets loop, filter,
now-playing, autoplay and the radio seed, while volume, the last text
channel id and the idle timestamp are unchanged. -/
theorem guildState_clear_frame (st : GuildState) :
    st.clear.queue = [] ∧ st.clear.loop = LoopMode.OFF ∧
    st.clear.filter_id = none ∧ st.clear.now = none ∧
    st.clear.autoplay = false ∧ st.clear.radio_query = none ∧
    st.clear.volume = st.volume ∧
    st.clear.last_text_channel_id = st.last_text_channel_id ∧
    st.clear.idle_since = st.idle_since := by
  refine ⟨rfl, rfl, rfl, rfl, rfl, rfl, rfl, rfl, rfl⟩
